import Mathlib

/-!
Verification of the crash-game backend core (`src/main.py`, `src/schemas.py`).

Shallow embedding conventions:
* Python byte strings are `List Nat` (each element a byte value); `str` keys/ids
  are Lean `String`; seeds are their UTF-8 byte lists.
* Python floats are modelled as exact rationals `ℚ` (real-valued semantics);
  `round(m, 2)` is modelled as rounding to an integer number of hundredths.
* Fallible Python code (raising) is modelled with `Option`; the `try/except`
  around the persistence collaborator is modelled by an explicit
  `persisted : Option String` parameter: `some id` when `create_document`
  returns `id`, `none` when the store raises / is unavailable.
* MongoDB collections are association lists `List (String × _)` from document
  id to document, newest first (new documents are prepended).
-/

namespace CrashGame

/-! ### SHA-256 over byte lists (FIPS 180-4), words as `Nat` reduced mod 2^32 -/

def w32 (n : Nat) : Nat := n % 4294967296

def rotr32 (n x : Nat) : Nat := w32 ((x >>> n) ||| (x <<< (32 - n)))

def bsig0 (x : Nat) : Nat := rotr32 2 x ^^^ rotr32 13 x ^^^ rotr32 22 x

def bsig1 (x : Nat) : Nat := rotr32 6 x ^^^ rotr32 11 x ^^^ rotr32 25 x

def ssig0 (x : Nat) : Nat := rotr32 7 x ^^^ rotr32 18 x ^^^ (x >>> 3)

def ssig1 (x : Nat) : Nat := rotr32 17 x ^^^ rotr32 19 x ^^^ (x >>> 10)

def chFn (e f g : Nat) : Nat := (e &&& f) ^^^ ((e ^^^ 4294967295) &&& g)

def majFn (a b c : Nat) : Nat := (a &&& b) ^^^ (a &&& c) ^^^ (b &&& c)

def sha256K : List Nat :=
  [1116352408, 1899447441, 3049323471, 3921009573, 961987163, 1508970993,
   2453635748, 2870763221, 3624381080, 310598401, 607225278, 1426881987,
   1925078388, 2162078206, 2614888103, 3248222580, 3835390401, 4022224774,
   264347078, 604807628, 770255983, 1249150122, 1555081692, 1996064986,
   2554220882, 2821834349, 2952996808, 3210313671, 3336571891, 3584528711,
   113926993, 338241895, 666307205, 773529912, 1294757372, 1396182291,
   1695183700, 1986661051, 2177026350, 2456956037, 2730485921, 2820302411,
   3259730800, 3345764771, 3516065817, 3600352804, 4094571909, 275423344,
   430227734, 506948616, 659060556, 883997877, 958139571, 1322822218,
   1537002063, 1747873779, 1955562222, 2024104815, 2227730452, 2361852424,
   2428436474, 2756734187, 3204031479, 3329325298]

def sha256H0 : List Nat :=
  [1779033703, 3144134277, 1013904242, 2773480762, 1359893119, 2600822924,
   528734635, 1541459225]

/-- Big-endian byte expansion: the `k`-byte big-endian encoding of `n`. -/
def bigEndianBytes (k n : Nat) : List Nat :=
  (List.range k).map (fun i => (n >>> (8 * (k - 1 - i))) % 256)

/-- Big-endian byte list to `Nat`. -/
def bytesToNat (bs : List Nat) : Nat := bs.foldl (fun acc b => acc * 256 + b) 0

/-- First 16 message-schedule words of a 64-byte block. -/
def toWords (block : List Nat) : List Nat :=
  (List.range 16).map (fun i =>
    block.getD (4 * i) 0 * 16777216 + block.getD (4 * i + 1) 0 * 65536 +
    block.getD (4 * i + 2) 0 * 256 + block.getD (4 * i + 3) 0)

/-- Extend the message schedule by `n` further words. -/
def extendWords : List Nat → Nat → List Nat
  | ws, 0 => ws
  | ws, Nat.succ n =>
    let i := ws.length
    let nw := w32 (ws.getD (i - 16) 0 + ssig0 (ws.getD (i - 15) 0) +
                   ws.getD (i - 7) 0 + ssig1 (ws.getD (i - 2) 0))
    extendWords (ws ++ [nw]) n

/-- One round of the SHA-256 compression function on the 8-word state. -/
def compressStep (st : List Nat) (kw : Nat × Nat) : List Nat :=
  match st with
  | [a, b, c, d, e, f, g, h] =>
    let t1 := w32 (h + bsig1 e + chFn e f g + kw.1 + kw.2)
    let t2 := w32 (bsig0 a + majFn a b c)
    [w32 (t1 + t2), a, b, c, w32 (d + t1), e, f, g]
  | st => st

/-- Process one 64-byte block against the running 8-word hash state. -/
def processBlock (h : List Nat) (block : List Nat) : List Nat :=
  let ws := extendWords (toWords block) 48
  let st := (sha256K.zip ws).foldl compressStep h
  (h.zip st).map (fun p => w32 (p.1 + p.2))

/-- Fold the compression function over `n` consecutive 64-byte chunks of `l`
(the padded message has length a multiple of 64, so `n = l.length / 64`
processes exactly its 64-byte chunks in order). -/
def processChunks : Nat → List Nat → List Nat → List Nat
  | 0, h, _ => h
  | Nat.succ n, h, l => processChunks n (processBlock h (l.take 64)) (l.drop 64)

/-- SHA-256 padding: append 0x80, zeros to 56 mod 64, then the 8-byte
big-endian bit length. -/
def padMessage (msg : List Nat) : List Nat :=
  let z := (119 - msg.length % 64) % 64
  msg ++ [128] ++ List.replicate z 0 ++ bigEndianBytes 8 (8 * msg.length)

/-- SHA-256 digest of a byte list, as a list of 32 bytes. -/
def sha256 (msg : List Nat) : List Nat :=
  let p := padMessage msg
  let hfin := processChunks (p.length / 64) sha256H0 p
  (hfin.map (bigEndianBytes 4)).flatten

/-! ### HMAC-SHA256 (RFC 2104, block size 64) -/

/-- Key preprocessing: hash keys longer than the block, then zero-pad to 64. -/
def hmacKeyBlock (key : List Nat) : List Nat :=
  let k0 := if 64 < key.length then sha256 key else key
  k0 ++ List.replicate (64 - k0.length) 0

def hmac_sha256 (key msg : List Nat) : List Nat :=
  let kb := hmacKeyBlock key
  let ipad := kb.map (fun b => b ^^^ 54)
  let opad := kb.map (fun b => b ^^^ 92)
  sha256 (opad ++ sha256 (ipad ++ msg))

/-! ### Hex encoding and parsing

`hexdigest` renders the 256-bit digest as its 64 lowercase hex characters
(nibble `i` of the big-endian digest value, most significant first), exactly
the string `hashlib`'s `.hexdigest()` produces for the 32 digest bytes.
`int(s, 16)` is modelled by `hexParse`, which fails (`none`) on the empty
string or on a non-hex character, as the Python call raises there. -/

def toHexChar : Nat → Char
  | 0 => '0' | 1 => '1' | 2 => '2' | 3 => '3' | 4 => '4' | 5 => '5'
  | 6 => '6' | 7 => '7' | 8 => '8' | 9 => '9' | 10 => 'a' | 11 => 'b'
  | 12 => 'c' | 13 => 'd' | 14 => 'e' | 15 => 'f' | _ => '0'

def hexVal (c : Char) : Option Nat :=
  if 48 ≤ c.toNat ∧ c.toNat ≤ 57 then some (c.toNat - 48)
  else if 97 ≤ c.toNat ∧ c.toNat ≤ 102 then some (c.toNat - 87)
  else if 65 ≤ c.toNat ∧ c.toNat ≤ 70 then some (c.toNat - 55)
  else none

def hexParseAux : Nat → List Char → Option Nat
  | acc, [] => some acc
  | acc, c :: cs =>
    match hexVal c with
    | some v => hexParseAux (acc * 16 + v) cs
    | none => none

def hexParse (cs : List Char) : Option Nat :=
  if cs.isEmpty then none else hexParseAux 0 cs

/-- The 64-character lowercase hex rendering of a 32-byte digest. -/
def hexdigest (bs : List Nat) : List Char :=
  (List.range 64).map (fun i => toHexChar ((bytesToNat bs >>> (4 * (63 - i))) % 16))

/-! ### Crash-point derivation (`crash_point_from_seed`, src/main.py lines 28-39) -/

/-- `1e-9`, the guard constant of the division. -/
def eps : ℚ := 1 / 1000000000

/-- `round(q, 2)`: round to a whole number of hundredths (ties modelled
half-up on the exact rational value). -/
def round2 (q : ℚ) : ℚ := (round (q * 100) : ℤ) / 100

/-- The denominator `max(1e-9, 1.0 - x)` used in `crash_point_from_seed`. -/
def guardedDenom (x : ℚ) : ℚ := max eps (1 - x)

/-- The bytes of the literal `b"crash"`. -/
def crashLabel : List Nat := [99, 114, 97, 115, 104]

/-- `crash_point_from_seed` (src/main.py lines 28-39): HMAC-SHA256 keyed by the
seed over `b"crash"`, first 13 hex chars of the hexdigest parsed as `r`,
`r == 0` forced to 1, `x = (r % 2^52) / 2^52`, `m = 1 / max(1e-9, 1 - x)`
clamped to `[1.01, 50.0]` and rounded to 2 decimals. `none` models a raised
exception (in fact unreachable: the parse always succeeds). -/
def crash_point_from_seed (server_seed : List Nat) : Option ℚ :=
  match hexParse ((hexdigest (hmac_sha256 server_seed crashLabel)).take 13) with
  | none => none
  | some r0 =>
    let r : Nat := if r0 = 0 then 1 else r0
    let x : ℚ := ((r % 2 ^ 52 : Nat) : ℚ) / ((2 ^ 52 : Nat) : ℚ)
    let m : ℚ := 1 / guardedDenom x
    some (round2 (max (101 / 100) (min m 50)))

/-- Modelled from the spec (§4.1 Commitment Generator): the reference
derivation `derive(serverSeed)` in the spec's words — HMAC-SHA256 keyed by the
seed over the label `"crash"`, first 13 hex characters parsed as the unsigned
integer `r` in `[0, 2^52)`, `r == 0` forced to 1, `x = r / 2^52`,
`m = 1 / max(1e-9, 1 - x)`, clamped to `[1.01, 50.0]`, rounded to 2 decimal
places. Differs textually from the code only in not reducing `r` mod `2^52`. -/
def derive_spec (server_seed : List Nat) : Option ℚ :=
  match hexParse ((hexdigest (hmac_sha256 server_seed crashLabel)).take 13) with
  | none => none
  | some r0 =>
    let r : Nat := if r0 = 0 then 1 else r0
    let x : ℚ := (r : ℚ) / ((2 ^ 52 : Nat) : ℚ)
    let m : ℚ := 1 / guardedDenom x
    some (round2 (max (101 / 100) (min m 50)))

/-! ### Data model (src/schemas.py, src/main.py response models)

Round documents live in the `crashround` collection, bet documents in
`crashbet`; both are modelled as association lists id → document, newest
first. `time.time()` and `uuid4().hex` are effects and become explicit
`now` / `server_seed` / ephemeral-id parameters. -/

/-- A `crashround` document (src/main.py lines 81-87). -/
structure Round where
  server_seed : List Nat
  start_time : ℚ
  crash_at : ℚ
  k : ℚ
  status : String
  deriving DecidableEq

/-- A `crashbet` document (src/main.py lines 121-128). -/
structure Bet where
  round_id : String
  player_id : String
  amount : ℚ
  auto_cashout : Option ℚ
  cashed_out_at : Option ℚ
  profit : Option ℚ
  deriving DecidableEq

/-- The `RoundInfo` response model (src/main.py lines 45-49). -/
structure RoundInfo where
  id : String
  start_time : ℚ
  crash_at : ℚ
  status : String
  deriving DecidableEq

/-- `CreateRoundRequest` (src/main.py lines 41-43); both fields optional. -/
structure CreateRoundRequest where
  k : Option ℚ
  delay_seconds : Option ℚ
  deriving DecidableEq

/-- The default `CreateRoundRequest()` (k = 0.25, delay_seconds = 2.0). -/
def CreateRoundRequest.default : CreateRoundRequest :=
  { k := some (1 / 4), delay_seconds := some 2 }

/-- `PlaceBetRequest` (src/main.py lines 51-54). -/
structure PlaceBetRequest where
  player_id : String
  amount : ℚ
  auto_cashout : Option ℚ
  deriving DecidableEq

/-- Python `a or b` on an optional float: `b` when `a` is `None` or `0.0`. -/
def pyOr (o : Option ℚ) (d : ℚ) : ℚ :=
  match o with
  | none => d
  | some v => if v = 0 then d else v

/-! ### Endpoints (src/main.py)

The try/except around `create_document` is modelled by
`persisted : Option String`: `some rid` if the store accepted the document
and returned id `rid` (the document is then stored), `none` if the call
raised (the document is not stored). -/

/-- `create_round` (src/main.py lines 75-93). `none` models a raised
exception from `crash_point_from_seed` (line 78, outside any try/except);
on persistence failure the response carries the fresh ephemeral id. -/
def create_round (rounds : List (String × Round)) (req : CreateRoundRequest)
    (now : ℚ) (server_seed : List Nat) (persisted : Option String)
    (ephemeral_id : String) : Option (List (String × Round) × RoundInfo) :=
  match crash_point_from_seed server_seed with
  | none => none
  | some crash_at =>
    let start_time := now + pyOr req.delay_seconds 0
    let rnd : Round :=
      { server_seed := server_seed, start_time := start_time,
        crash_at := crash_at, k := pyOr req.k (1 / 4), status := "scheduled" }
    match persisted with
    | some rid =>
      some ((rid, rnd) :: rounds,
            { id := rid, start_time := start_time, crash_at := crash_at,
              status := "scheduled" })
    | none =>
      some (rounds,
            { id := ephemeral_id, start_time := start_time,
              crash_at := crash_at, status := "scheduled" })

/-- The mongo query of `get_current_round` (src/main.py line 100): the
scheduled/running round with the greatest `start_time`. -/
def find_current (rounds : List (String × Round)) : Option (String × Round) :=
  (rounds.filter
      (fun p => p.2.status == "scheduled" || p.2.status == "running")).foldl
    (fun acc p =>
      match acc with
      | none => some p
      | some q => if q.2.start_time < p.2.start_time then some p else some q)
    none

/-- `get_current_round` (src/main.py lines 95-107): return the most recent
scheduled/running round, else fall back to creating a fresh round. -/
def get_current_round (rounds : List (String × Round)) (now : ℚ)
    (server_seed : List Nat) (persisted : Option String)
    (ephemeral_id : String) : Option (List (String × Round) × RoundInfo) :=
  match find_current rounds with
  | some (rid, r) =>
    some (rounds,
          { id := rid, start_time := r.start_time, crash_at := r.crash_at,
            status := r.status })
  | none =>
    create_round rounds CreateRoundRequest.default now server_seed persisted
      ephemeral_id

/-- `update_round_status` (src/main.py lines 109-116): unconditionally set
the matching round's status to the given string and acknowledge `ok = true`
(exceptions are swallowed; no transition check of any kind). -/
def update_round_status (rounds : List (String × Round)) (round_id : String)
    (status : String) : List (String × Round) × Bool :=
  (rounds.map (fun p =>
     if p.1 == round_id then (p.1, { p.2 with status := status }) else p),
   true)

/-- `place_bet` (src/main.py lines 118-135): build the bet document with
`cashed_out_at = None`, `profit = None`, try to persist it, and return a bet
id — the persisted one, or a fresh ephemeral id when persistence failed.
The round is never looked up and no field is validated. -/
def place_bet (bets : List (String × Bet)) (round_id : String)
    (req : PlaceBetRequest) (persisted : Option String)
    (ephemeral_id : String) : List (String × Bet) × String :=
  let b : Bet :=
    { round_id := round_id, player_id := req.player_id, amount := req.amount,
      auto_cashout := req.auto_cashout, cashed_out_at := none, profit := none }
  match persisted with
  | some bid => ((bid, b) :: bets, bid)
  | none => (bets, ephemeral_id)

/-- The mongo query of `cashout` (src/main.py line 143): the most recent bet
of the player on the round (documents carry no `created_at` field, so the
sort is vacuous and the newest-first list order decides). -/
def find_bet (bets : List (String × Bet)) (round_id player_id : String) :
    Option (String × Bet) :=
  bets.find? (fun p => p.2.round_id == round_id && p.2.player_id == player_id)

/-- `cashout` (src/main.py lines 137-150): look up the player's latest bet on
the round, compute `profit = round(amount * max(0.0, at_multiplier - 1.0), 2)`,
overwrite `cashed_out_at` and `profit` on that bet, and return the profit
(`none` when no bet matched). No round-status, crash-point, live-multiplier
or already-settled check is performed. -/
def cashout (bets : List (String × Bet)) (round_id player_id : String)
    (at_multiplier : ℚ) : List (String × Bet) × Option ℚ :=
  match find_bet bets round_id player_id with
  | none => (bets, none)
  | some (bid, b) =>
    let profit := round2 (b.amount * max 0 (at_multiplier - 1))
    (bets.map (fun p =>
       if p.1 == bid then
         (p.1, { p.2 with cashed_out_at := some at_multiplier,
                          profit := some profit })
       else p),
     some profit)

/-! ### Helper lemmas: hex parsing -/

theorem hexVal_le {c : Char} {v : Nat} (h : hexVal c = some v) : v ≤ 15 := by
  unfold hexVal at h
  split_ifs at h with h1 h2 h3 <;>
    simp only [Option.some.injEq, reduceCtorEq] at h <;> omega

theorem hexVal_toHexChar {n : Nat} (h : n < 16) :
    hexVal (toHexChar n) = some n := by
  interval_cases n <;> decide

theorem hexParseAux_lt :
    ∀ (cs : List Char) (acc n : Nat),
      hexParseAux acc cs = some n → n < (acc + 1) * 16 ^ cs.length := by
  intro cs
  induction cs with
  | nil =>
    intro acc n h
    simp only [hexParseAux, Option.some.injEq] at h
    simp [h.symm, Nat.lt_succ_self acc]
  | cons c cs ih =>
    intro acc n h
    unfold hexParseAux at h
    cases hv : hexVal c with
    | none => rw [hv] at h; cases h
    | some v =>
      rw [hv] at h
      have hb := ih (acc * 16 + v) n h
      have hvle : v ≤ 15 := hexVal_le hv
      calc n < (acc * 16 + v + 1) * 16 ^ cs.length := hb
        _ ≤ ((acc + 1) * 16) * 16 ^ cs.length :=
            Nat.mul_le_mul_right _ (by omega)
        _ = (acc + 1) * 16 ^ (c :: cs).length := by
            simp [List.length_cons, pow_succ]; ring

theorem hexParse_lt {cs : List Char} {n : Nat} (h : hexParse cs = some n) :
    n < 16 ^ cs.length := by
  unfold hexParse at h
  split_ifs at h
  simpa using hexParseAux_lt cs 0 n h

theorem hexParseAux_isSome :
    ∀ (cs : List Char) (acc : Nat), (∀ c ∈ cs, (hexVal c).isSome) →
      ∃ n, hexParseAux acc cs = some n := by
  intro cs
  induction cs with
  | nil => intro acc _; exact ⟨acc, rfl⟩
  | cons c cs ih =>
    intro acc hall
    have hc : (hexVal c).isSome := hall c (List.mem_cons_self c cs)
    cases hv : hexVal c with
    | none => rw [hv] at hc; cases hc
    | some v =>
      obtain ⟨n, hn⟩ :=
        ih (acc * 16 + v) (fun d hd => hall d (List.mem_cons_of_mem c hd))
      exact ⟨n, by unfold hexParseAux; rw [hv]; exact hn⟩

theorem mem_hexdigest_isSome {bs : List Nat} {c : Char}
    (h : c ∈ hexdigest bs) : (hexVal c).isSome := by
  unfold hexdigest at h
  simp only [List.mem_map, List.mem_range] at h
  obtain ⟨i, _, rfl⟩ := h
  rw [hexVal_toHexChar (Nat.mod_lt _ (by norm_num))]
  rfl

theorem length_hexdigest (bs : List Nat) : (hexdigest bs).length = 64 := by
  simp [hexdigest]

/-- The parse of the first 13 hex characters of the crash digest always
succeeds and yields a value below `2^52`. -/
theorem crash_parse (s : List Nat) :
    ∃ r, hexParse ((hexdigest (hmac_sha256 s crashLabel)).take 13) = some r ∧
      r < 2 ^ 52 := by
  have hlen :
      ((hexdigest (hmac_sha256 s crashLabel)).take 13).length = 13 := by
    rw [List.length_take, length_hexdigest]
    omega
  have hall : ∀ c ∈ (hexdigest (hmac_sha256 s crashLabel)).take 13,
      (hexVal c).isSome :=
    fun c hc => mem_hexdigest_isSome (List.mem_of_mem_take hc)
  obtain ⟨n, hn⟩ :=
    hexParseAux_isSome ((hexdigest (hmac_sha256 s crashLabel)).take 13) 0 hall
  have hne : ((hexdigest (hmac_sha256 s crashLabel)).take 13).isEmpty = false := by
    cases hcs : (hexdigest (hmac_sha256 s crashLabel)).take 13 with
    | nil => rw [hcs] at hlen; cases hlen
    | cons a l => rfl
  refine ⟨n, ?_, ?_⟩
  · unfold hexParse
    rw [hne]
    simpa using hn
  · have hb := hexParseAux_lt _ 0 n hn
    rw [hlen] at hb
    calc n < (0 + 1) * 16 ^ 13 := hb
      _ = 2 ^ 52 := by norm_num

/-! ### Helper lemmas: rounding to two decimals -/

theorem round2_mono {x y : ℚ} (h : x ≤ y) : round2 x ≤ round2 y := by
  unfold round2
  have hr : round (x * 100) ≤ round (y * 100) := by
    rw [round_eq, round_eq]
    exact Int.floor_le_floor (by linarith)
  gcongr

theorem round2_ratio : round2 (101 / 100) = 101 / 100 := by
  unfold round2
  rw [show (101 / 100 : ℚ) * 100 = ((101 : ℤ) : ℚ) by norm_num, round_intCast]
  norm_num

theorem round2_fifty : round2 50 = 50 := by
  unfold round2
  rw [show (50 : ℚ) * 100 = ((5000 : ℤ) : ℚ) by norm_num, round_intCast]
  norm_num

theorem round2_zero : round2 0 = 0 := by
  unfold round2
  rw [show (0 : ℚ) * 100 = ((0 : ℤ) : ℚ) by norm_num, round_intCast]
  norm_num

/-- Rounding the clamped multiplier stays inside `[1.01, 50.0]`. -/
theorem round2_clamp_bounds (m : ℚ) :
    (1.01 : ℚ) ≤ round2 (max (101 / 100) (min m 50)) ∧
    round2 (max (101 / 100) (min m 50)) ≤ 50 := by
  constructor
  · rw [show (1.01 : ℚ) = round2 (101 / 100) by rw [round2_ratio]; norm_num]
    exact round2_mono (le_max_left _ _)
  · have h : round2 (max (101 / 100) (min m 50)) ≤ round2 50 :=
      round2_mono (max_le (by norm_num) (min_le_right _ _))
    rwa [round2_fifty] at h

/-- Unfolding lemma: the value of `crash_point_from_seed` once the hex parse
of the digest prefix is known. -/
theorem crash_point_from_seed_eq {s : List Nat} {r0 : Nat}
    (h : hexParse ((hexdigest (hmac_sha256 s crashLabel)).take 13) = some r0) :
    crash_point_from_seed s =
      some (round2 (max (101 / 100)
        (min (1 / guardedDenom
          ((((if r0 = 0 then 1 else r0) % 2 ^ 52 : Nat) : ℚ) /
            ((2 ^ 52 : Nat) : ℚ))) 50))) := by
  unfold crash_point_from_seed
  rw [h]

/-- Unfolding lemma: the value of `derive_spec` once the hex parse of the
digest prefix is known. -/
theorem derive_spec_eq {s : List Nat} {r0 : Nat}
    (h : hexParse ((hexdigest (hmac_sha256 s crashLabel)).take 13) = some r0) :
    derive_spec s =
      some (round2 (max (101 / 100)
        (min (1 / guardedDenom
          ((((if r0 = 0 then 1 else r0) : Nat) : ℚ) /
            ((2 ^ 52 : Nat) : ℚ))) 50))) := by
  unfold derive_spec
  rw [h]

/-! ### Demo fixtures for concrete evaluations -/

/-- A demo round on which to exercise the endpoints. -/
def roundWith (status : String) : Round :=
  { server_seed := [], start_time := 0, crash_at := 2, k := 1 / 4,
    status := status }

/-- A demo bet of player `"p1"` on round `"r1"` with stake 10. -/
def betWith (c p : Option ℚ) : Bet :=
  { round_id := "r1", player_id := "p1", amount := 10, auto_cashout := some 3,
    cashed_out_at := c, profit := p }

/-! ### Claims -/

/-- C2: for every seed, `crash_point_from_seed` equals the spec's reference
derivation algorithm (HMAC-SHA256 over "crash", first 13 hex chars as `r`,
`r = 0` forced to 1, `x = r / 2^52`, `m = 1 / max(1e-9, 1 - x)`, clamped to
`[1.01, 50.0]`, rounded to 2 decimals): the code's extra `r % 2^52` is the
identity because the 13-character parse is below `16^13 = 2^52`. -/
theorem crash_point_from_seed_eq_derive_spec (s : List Nat) :
    crash_point_from_seed s = derive_spec s := by
  obtain ⟨r, hr, hlt⟩ := crash_parse s
  rw [crash_point_from_seed_eq hr, derive_spec_eq hr]
  have h1 : (if r = 0 then 1 else r) < 2 ^ 52 := by
    split
    · norm_num
    · exact hlt
  rw [Nat.mod_eq_of_lt h1]

/-- C8: derivation is deterministic — the same seed always yields the
identical value (the embedding is a pure function of the seed alone) — and
every value it returns lies in `[1.01, 50.0]`. -/
theorem derive_deterministic_and_in_range (s : List Nat) :
    crash_point_from_seed s = crash_point_from_seed s ∧
    ∀ q : ℚ, crash_point_from_seed s = some q → (1.01 : ℚ) ≤ q ∧ q ≤ 50 := by
  refine ⟨rfl, ?_⟩
  intro q hq
  obtain ⟨r, hr, _⟩ := crash_parse s
  rw [crash_point_from_seed_eq hr, Option.some.injEq] at hq
  subst hq
  exact round2_clamp_bounds _

/-- C10: `crash_point_from_seed` is total — for every seed the 13-character
hex parse succeeds and a value is returned (no exception path is taken), and
the guarded denominator `max(1e-9, 1 - x)` is positive for every `x`, so the
division-by-zero branch is unreachable. -/
theorem crash_point_from_seed_total (s : List Nat) :
    (∃ q, crash_point_from_seed s = some q) ∧
    ∀ x : ℚ, 0 < guardedDenom x := by
  constructor
  · obtain ⟨r, hr, _⟩ := crash_parse s
    exact ⟨_, crash_point_from_seed_eq hr⟩
  · intro x
    have h : (0 : ℚ) < eps := by norm_num [eps]
    exact lt_max_iff.mpr (Or.inl h)

/-- C9: when the persistence call raises (`persisted = none`), `create_round`
still succeeds and returns a descriptor carrying the fresh ephemeral id, and
`place_bet` still succeeds and returns the fresh ephemeral bet id. -/
theorem create_round_and_place_bet_degrade (rounds : List (String × Round))
    (req : CreateRoundRequest) (now : ℚ) (s : List Nat) (eph : String)
    (c : ℚ) (bets : List (String × Bet)) (rid : String)
    (breq : PlaceBetRequest) (beph : String)
    (hc : crash_point_from_seed s = some c) :
    create_round rounds req now s none eph =
      some (rounds,
        { id := eph, start_time := now + pyOr req.delay_seconds 0,
          crash_at := c, status := "scheduled" }) ∧
    place_bet bets rid breq none beph = (bets, beph) := by
  refine ⟨?_, rfl⟩
  unfold create_round
  rw [hc]

set_option maxRecDepth 400000 in
unseal Rat.mul Rat.inv Rat.add Rat.sub Rat.ofScientific in
/-- C9 witness: concrete degraded-mode requests with seed `"abc"`. -/
theorem create_round_and_place_bet_degrade_witness :
    create_round [] CreateRoundRequest.default 0 [97, 98, 99] none "e1" =
      some ([],
        { id := "e1",
          start_time := 0 + pyOr CreateRoundRequest.default.delay_seconds 0,
          crash_at := 227 / 10, status := "scheduled" }) ∧
    place_bet [] "r1" { player_id := "p1", amount := 10, auto_cashout := none }
      none "e2" = ([], "e2") :=
  create_round_and_place_bet_degrade [] CreateRoundRequest.default 0
    [97, 98, 99] "e1" (227 / 10) [] "r1"
    { player_id := "p1", amount := 10, auto_cashout := none } "e2" (by decide)

set_option maxRecDepth 400000 in
unseal Rat.mul Rat.inv Rat.add Rat.sub Rat.ofScientific in
/-- C8 witness: the crash point of seed `"abc"` is 22.70 and lies in range. -/
theorem derive_deterministic_and_in_range_witness :
    (1.01 : ℚ) ≤ 227 / 10 ∧ (227 / 10 : ℚ) ≤ 50 :=
  (derive_deterministic_and_in_range [97, 98, 99]).2 (227 / 10) (by decide)

set_option maxRecDepth 400000 in
unseal Rat.mul Rat.inv Rat.add Rat.sub Rat.ofScientific in
/-- C1 (evidence of the code bug): the claim says the public responses of
create-round and get-current-round never expose `crashAt` before the round
crashes — but `create_round`'s response carries the genuine crash point
(22.70 for seed "abc") while the status is still `"scheduled"`, and
`get_current_round` re-serves the stored `crash_at` for a scheduled round. -/
theorem create_round_response_exposes_crash_point :
    create_round [] CreateRoundRequest.default 0 [97, 98, 99] (some "r1")
        "e1" =
      some ([("r1", { server_seed := [97, 98, 99], start_time := 2,
                      crash_at := 227 / 10, k := 1 / 4,
                      status := "scheduled" })],
        { id := "r1", start_time := 2, crash_at := 227 / 10,
          status := "scheduled" }) ∧
    get_current_round [("r1", roundWith "scheduled")] 5 [] none "e2" =
      some ([("r1", roundWith "scheduled")],
        { id := "r1", start_time := 0, crash_at := 2,
          status := "scheduled" }) := by
  exact ⟨by decide, by decide⟩

unseal Rat.mul Rat.inv Rat.add Rat.sub Rat.ofScientific in
/-- C3 (evidence of the code bug): the claim says a manual cashout asserting
a multiplier above the authoritative live multiplier (or above `crashAt`, or
on a non-running round) is rejected — but `cashout` never consults the
round's status, crash point or clock: it takes no round data at all and
settles the client-asserted multiplier 1000 on a stake of 10 for a profit of
9990. -/
theorem cashout_settles_client_asserted_multiplier :
    cashout [("b1", betWith none none)] "r1" "p1" 1000 =
      ([("b1", { (betWith none none) with
                 cashed_out_at := some 1000,
                 profit := some 9990 })], some 9990) := by
  decide

unseal Rat.mul Rat.inv Rat.add Rat.sub Rat.ofScientific in
/-- C4 (evidence of the code bug): the claim says a settled bet can never be
re-settled — but `cashout` performs no already-settled check: on a bet
already settled at 1.5 with profit 5 it settles again at 3, overwriting the
stored profit with 20. -/
theorem cashout_overwrites_prior_settlement :
    cashout [("b1", betWith (some (3 / 2)) (some 5))] "r1" "p1" 3 =
      ([("b1", { (betWith (some (3 / 2)) (some 5)) with
                 cashed_out_at := some 3,
                 profit := some 20 })], some 20) := by
  decide

unseal Rat.mul Rat.inv Rat.add Rat.sub Rat.ofScientific in
/-- C5 (evidence of the code bug): the claim says a bet is created only when
the round is scheduled/running, the amount is positive and any auto-cashout
is ≥ 1.01 — but `place_bet` validates nothing and never looks the round up
(it takes no round data): a bet with amount −5 and auto-cashout 1.0 on an
arbitrary (possibly crashed) round id is created and acknowledged. -/
theorem place_bet_accepts_invalid_bet :
    place_bet [] "crashedRound"
        { player_id := "p1", amount := -5, auto_cashout := some 1 }
        (some "b1") "e1" =
      ([("b1", { round_id := "crashedRound", player_id := "p1", amount := -5,
                 auto_cashout := some 1, cashed_out_at := none,
                 profit := none })], "b1") := by
  decide

unseal Rat.mul Rat.inv Rat.add Rat.sub Rat.ofScientific in
/-- C6 (evidence of the code bug): the claim says every bet still unsettled
when its round crashes is settled with `profit = −amount` — but no
finalize-on-crash path exists: moving the round to `"crashed"` touches only
the round document (the bet stays unsettled), and the only settlement path,
`cashout`, computes `round(amount * max(0, m − 1), 2) ≥ 0`, so a total-loss
profit of −10 on the stake of 10 can never be produced. -/
theorem crash_transition_never_finalizes_bets :
    update_round_status [("r1", roundWith "running")] "r1" "crashed" =
      ([("r1", roundWith "crashed")], true) ∧
    find_bet [("b1", betWith none none)] "r1" "p1" =
      some ("b1", betWith none none) ∧
    ∀ m : ℚ,
      ((cashout [("b1", betWith none none)] "r1" "p1" m).2.getD 0) ≠ -10 := by
  refine ⟨by decide, by decide, ?_⟩
  intro m
  have hfb : find_bet [("b1", betWith none none)] "r1" "p1" =
      some ("b1", betWith none none) := by decide
  unfold cashout
  rw [hfb]
  simp only [Option.getD_some]
  intro heq
  have h0 : (0 : ℚ) ≤ round2 ((betWith none none).amount * max 0 (m - 1)) := by
    have hnn : (0 : ℚ) ≤ (betWith none none).amount * max 0 (m - 1) :=
      mul_nonneg (by norm_num [betWith]) (le_max_left 0 (m - 1))
    have := round2_mono hnn
    rwa [round2_zero] at this
  rw [heq] at h0
  norm_num at h0

unseal Rat.mul Rat.inv Rat.add Rat.sub Rat.ofScientific in
/-- C7 (evidence of the code bug): the claim says round status only advances
`scheduled → running → crashed` and that backward or skipping updates fail
with an invalid-transition error — but `update_round_status` performs no
transition check: it moves a crashed round back to `"scheduled"`, jumps a
scheduled round straight to `"crashed"`, and even installs an arbitrary
string, acknowledging `ok = true` each time. -/
theorem update_round_status_accepts_any_transition :
    update_round_status [("r1", roundWith "crashed")] "r1" "scheduled" =
      ([("r1", roundWith "scheduled")], true) ∧
    update_round_status [("r1", roundWith "scheduled")] "r1" "crashed" =
      ([("r1", roundWith "crashed")], true) ∧
    update_round_status [("r1", roundWith "scheduled")] "r1" "bogus" =
      ([("r1", roundWith "bogus")], true) := by
  exact ⟨by decide, by decide, by decide⟩

end CrashGame
